import Mathlib

/-!
Verification development for the Kubrick video-generation pipeline.

Shallow embedding of the orchestration core of the repository:
agent result parsing (`agents/reviewer.py`, `agents/director.py`,
`agents/programmer.py`), the Blender function library
(`blender/library.py`), and the iterative generate-validate-capture-review
control loop of `pipeline/kubrick.py`.

Modelling conventions:
* Python strings are `String` / `List Char`; numeric scores (Python floats)
  are modelled as exact rationals `ℚ` — every literal compared against in
  the source (0.8, 0.5) and every concrete score used in the theorems is
  exactly representable, so comparison outcomes agree with the float code.
* Calls to external collaborators (the LLM completion endpoints, the
  Blender executor, the knowledge base) are oracles: each call's outcome is
  an arbitrary value supplied per call site.  A call that can raise is an
  `Except`.  Prompt construction, logging, and file I/O only feed those
  collaborators or the log and are not modelled.
* Python dicts are association lists with first-match lookup; `dict[k] = v`
  replaces in place or appends, as in CPython.
-/

namespace Kubrick

/-! ### Python string helpers (`str.strip`, `str.find`, `in`) -/

/-- The six ASCII whitespace characters stripped by Python's `str.strip()`. -/
def is_py_space (c : Char) : Bool :=
  c = ' ' || c = '\t' || c = '\n' || c = '\r' || c = Char.ofNat 11 || c = Char.ofNat 12

/-- Python `str.strip()` on a character list. -/
def py_strip (s : List Char) : List Char :=
  ((s.dropWhile is_py_space).reverse.dropWhile is_py_space).reverse

/-- Python `str.find(pat)`: index of the leftmost occurrence of `pat`
(`none` for Python's `-1`). -/
def str_find (pat : List Char) : List Char → Option Nat
  | [] => if pat.isEmpty then some 0 else none
  | c :: rest =>
    if pat.isPrefixOf (c :: rest) then some 0
    else (str_find pat rest).map (· + 1)

/-! ### `LLMProgrammer._extract_code` (`agents/programmer.py` 108-124) -/

/-- The `"```python"` opening marker (9 characters). -/
def py_fence_open : List Char := "```python".toList

/-- The plain `"```"` fence marker (3 characters). -/
def fence_marker : List Char := "```".toList

/-- `LLMProgrammer._extract_code`: extract code from markdown fences.
`text.find("```", start)` is modelled by searching the dropped suffix and
re-basing the index; Python's `end > start` test becomes `start < e`. -/
def extract_code (text : List Char) : List Char :=
  match str_find py_fence_open text with
  | some idx =>
    let start := idx + 9
    match str_find fence_marker (text.drop start) with
    | some j =>
      let e := start + j
      if start < e then py_strip ((text.drop start).take (e - start))
      else py_strip text
    | none => py_strip text
  | none =>
    match str_find fence_marker text with
    | some idx =>
      let start := idx + 3
      match str_find fence_marker (text.drop start) with
      | some j =>
        let e := start + j
        if start < e then py_strip ((text.drop start).take (e - start))
        else py_strip text
      | none => py_strip text
    | none => py_strip text

/-- The trimmed body of the first `"```python"` block that is closed by a
later fence and nonempty (the only shape the `"```python"` branch of
`_extract_code` accepts). -/
def first_python_block (text : List Char) : Option (List Char) :=
  match str_find py_fence_open text with
  | none => none
  | some idx =>
    let start := idx + 9
    match str_find fence_marker (text.drop start) with
    | none => none
    | some j => if 0 < j then some (py_strip ((text.drop start).take j)) else none

/-- The spec's reading of "the contents of the first fenced code block":
everything between the first `"```"` and the next `"```"`, taken literally
(language tag included) and trimmed; `none` when no closed nonempty block
exists. -/
def first_fenced_block (text : List Char) : Option (List Char) :=
  match str_find fence_marker text with
  | none => none
  | some idx =>
    let start := idx + 3
    match str_find fence_marker (text.drop start) with
    | none => none
    | some j => if 0 < j then some (py_strip ((text.drop start).take j)) else none

/-! ### Review parsing (`agents/reviewer.py`, `core` data models) -/

/-- `core.enums.ReviewStatus`. -/
inductive ReviewStatus
  | passed
  | failed
  | needsRevision
deriving DecidableEq, Repr

/-- `core` `ReviewFeedback` (status, score, issues, suggestions, metrics);
the timestamp field is not modelled. -/
structure ReviewFeedback where
  status : ReviewStatus
  score : ℚ
  issues : List String
  suggestions : List String
  metrics : List (String × ℚ) := []
deriving DecidableEq, Repr

/-- The `ReviewFeedback.passed` property: `status == ReviewStatus.PASSED`. -/
def ReviewFeedback.passed (fb : ReviewFeedback) : Bool :=
  fb.status = ReviewStatus.passed

/-- The JSON object returned by the review model, as consumed by
`VLMReviewer._parse_review`: each field is present or absent. -/
structure ReviewPayload where
  passed : Option Bool
  score : Option ℚ
  issues : Option (List String)
  suggestions : Option (List String)
  metrics : Option (List (String × ℚ))
deriving DecidableEq, Repr

/-- `VLMReviewer._parse_review` (`agents/reviewer.py` 177-197): missing keys
default to `False` / `0.0` / `[]` / `{}`. -/
def parse_review (d : ReviewPayload) : ReviewFeedback :=
  let passed := d.passed.getD false
  let score := d.score.getD 0
  let status :=
    if passed = true ∧ (0.8 : ℚ) ≤ score then ReviewStatus.passed
    else if (0.5 : ℚ) ≤ score then ReviewStatus.needsRevision
    else ReviewStatus.failed
  { status := status
    score := score
    issues := d.issues.getD []
    suggestions := d.suggestions.getD []
    metrics := d.metrics.getD [] }

/-! ### Taxonomy and decomposition (`core/enums.py`, `agents/director.py`) -/

/-- `core.enums.SubProcess`: the five sub-processes of mise-en-scène,
in declaration order. -/
inductive SubProcess
  | scene
  | character
  | motion
  | lighting
  | cinematography
deriving DecidableEq, Repr

/-- The string value of each `SubProcess` member. -/
def SubProcess.value : SubProcess → String
  | .scene => "scene"
  | .character => "character"
  | .motion => "motion"
  | .lighting => "lighting"
  | .cinematography => "cinematography"

/-- Iteration order of the `SubProcess` enumeration (Python
`for ... in SubProcess`). -/
def sub_process_enum : List SubProcess :=
  [.scene, .character, .motion, .lighting, .cinematography]

/-- Position of a category in the taxonomy enumeration (stated from the
enum declaration, independently of `_parse_decomposition`). -/
def SubProcess.taxonomy_index : SubProcess → Nat
  | .scene => 0
  | .character => 1
  | .motion => 2
  | .lighting => 3
  | .cinematography => 4

/-- One value of the decomposition JSON object: optional `"description"`
and `"parameters"` keys.  Parameter maps are opaque key-value data; they are
modelled as string pairs. -/
structure DecompEntry where
  description : Option String
  parameters : Option (List (String × String))
deriving DecidableEq, Repr

/-- `core` `SubProcessDescription`. -/
structure SubProcessDescription where
  process_type : SubProcess
  description : String
  parameters : List (String × String)
  order : Nat := 0
  dependencies : List String := []
deriving DecidableEq, Repr

/-- The loop body of `LLMDirector._parse_decomposition`, walking
`enumerate(SubProcess)` and appending an entry for each key present. -/
def parse_decomposition_aux (decomp : String → Option DecompEntry) :
    List (Nat × SubProcess) → List SubProcessDescription
  | [] => []
  | (idx, pt) :: rest =>
    match decomp pt.value with
    | some d =>
      { process_type := pt
        description := d.description.getD ""
        parameters := d.parameters.getD []
        order := idx } :: parse_decomposition_aux decomp rest
    | none => parse_decomposition_aux decomp rest

/-- `LLMDirector._parse_decomposition` (`agents/director.py` 58-72).
The parsed JSON dict is modelled by its lookup function `decomp`. -/
def parse_decomposition (decomp : String → Option DecompEntry) :
    List SubProcessDescription :=
  parse_decomposition_aux decomp sub_process_enum.enum

/-! ### `BlenderFunctionLibrary` (`blender/library.py`) -/

/-- The per-category function-name lists of
`BlenderFunctionLibrary.get_relevant_functions`.  The source dict maps all
five members, so its `.get(process_type, [])` default is never taken. -/
def function_mapping : SubProcess → List String
  | .scene => ["import_asset", "scale_asset", "position_asset", "apply_material"]
  | .character => ["import_asset", "scale_asset", "rotate_asset", "position_asset"]
  | .motion => ["set_motion", "create_walk_cycle", "create_jump_motion",
      "apply_armature_action"]
  | .lighting => ["setup_lighting", "create_three_point_lighting",
      "setup_hdri_lighting"]
  | .cinematography => ["setup_camera", "animate_camera_orbit",
      "animate_camera_dolly", "setup_camera_tracking"]

/-- The collection loop of `get_relevant_functions`: Python's
`if func_code:` skips both a missing entry (`None`) and an empty string,
both falsy. -/
def collect_functions (get_function : String → Option String) :
    List String → List String
  | [] => []
  | name :: rest =>
    match get_function name with
    | some code =>
      if code = "" then collect_functions get_function rest
      else ("# Function: " ++ name ++ "\n" ++ code) ::
        collect_functions get_function rest
    | none => collect_functions get_function rest

/-- `BlenderFunctionLibrary.get_relevant_functions` (`blender/library.py`
85-130), over the library's `get_function` lookup. -/
def get_relevant_functions (get_function : String → Option String)
    (process_type : SubProcess) : String :=
  String.intercalate "\n\n" (collect_functions get_function (function_mapping process_type))

/-- The claim's reading of `relevantFor`: every mapped name present in the
library contributes, whatever its code. -/
def relevant_for_claim (get_function : String → Option String)
    (process_type : SubProcess) : String :=
  String.intercalate "\n\n"
    ((function_mapping process_type).filterMap fun name =>
      (get_function name).map fun code => "# Function: " ++ name ++ "\n" ++ code)

/-- CPython dict assignment `d[k] = v` on an association list: replace the
value in place when the key exists, append otherwise. -/
def dict_set (d : List (String × String)) (k v : String) :
    List (String × String) :=
  if (d.lookup k).isSome then d.map (fun p => if p.1 = k then (k, v) else p)
  else d ++ [(k, v)]

/-- Python `d.update(e)`: assign every entry of `e` into `d` in order. -/
def dict_update (d e : List (String × String)) : List (String × String) :=
  e.foldl (fun acc p => dict_set acc p.1 p.2) d

/-- The key set of `_load_builtin_functions`, in final dict order.  In the
source, `position_asset` is inserted twice (from `functions/assets.py`, then
overwritten by `functions/base.py`); the key set is these 24 names. -/
def builtin_names : List String :=
  ["import_asset", "scale_asset", "rotate_asset", "position_asset",
   "apply_material", "set_motion", "create_walk_cycle", "create_jump_motion",
   "apply_armature_action", "scale_asset_to_real_world_dimensions",
   "rotate_asset_to_point", "clear_scene", "setup_render_settings",
   "duplicate_asset", "setup_three_point_lighting", "setup_natural_lighting",
   "setup_dramatic_lighting", "setup_studio_lighting", "setup_camera",
   "animate_orbit_camera", "animate_dolly_camera", "animate_tracking_camera",
   "animate_handheld_camera", "setup_shot_composition"]

/-- `BlenderFunctionLibrary._load_builtin_functions`: the code bodies are
multi-line Python string constants from `blender/functions/*`; their text is
irrelevant data, abstracted by `bf : String → String`. -/
def load_builtin_functions (bf : String → String) : List (String × String) :=
  builtin_names.map fun n => (n, bf n)

/-- The in-memory state of a `BlenderFunctionLibrary`: its `functions`
dict. -/
structure BlenderFunctionLibrary where
  functions : List (String × String)
deriving DecidableEq, Repr

/-- Library construction (`__init__`): built-in functions, then
`functions.update(custom_functions)` — custom entries shadow built-ins of
the same name. -/
def mk_library (bf : String → String) (custom : List (String × String)) :
    BlenderFunctionLibrary :=
  ⟨dict_update (load_builtin_functions bf) custom⟩

/-- `BlenderFunctionLibrary.get_function`. -/
def get_function (lib : BlenderFunctionLibrary) (name : String) :
    Option String :=
  lib.functions.lookup name

/-- `BlenderFunctionLibrary.update_function` (in-memory part; the
`save=True` side effect is `save_custom_functions` below). -/
def update_function (lib : BlenderFunctionLibrary) (name code : String) :
    BlenderFunctionLibrary :=
  ⟨dict_set lib.functions name code⟩

/-- `BlenderFunctionLibrary._save_custom_functions`: the document written to
durable storage — the entries whose names are not built-in keys. -/
def save_custom_functions (bf : String → String)
    (lib : BlenderFunctionLibrary) : List (String × String) :=
  let builtin_keys := (load_builtin_functions bf).map Prod.fst
  lib.functions.filter fun p => ¬ p.1 ∈ builtin_keys

/-! ### Script generation (`agents/programmer.py`) -/

/-- `core` `ScriptResult` (fields used by the pipeline). -/
structure ScriptResult where
  success : Bool
  script : String
  output : String := ""
  error : Option String := none
deriving DecidableEq, Repr

/-- `LLMProgrammer.generate_script`: the completion call either raises
(`.error`) or returns the raw text, from which `_extract_code` takes the
script.  Prompt construction (library functions, RAG context, feedback
threading) only shapes the model input and is absorbed into the oracle. -/
def generate_script (gen : Except String String) : Except String String :=
  gen.map fun raw => String.mk (extract_code raw.data)

/-- `LLMProgrammer.process`: wraps `generate_script` in a `ScriptResult`
with `success=True` unconditionally; a generation failure propagates as the
raised exception, never as `success=False`. -/
def programmer_process (gen : Except String String) :
    Except String ScriptResult :=
  (generate_script gen).map fun script =>
    { success := true, script := script, output := "Script generated successfully" }

/-! ### The iteration controller (`KubrickPipeline._process_subprocess`) -/

/-- The collaborator outcomes one loop iteration can observe:
the generation call (raw completion text or raised error), the
`validate_script` verdict, the number of captured screenshots, and the
review feedback. -/
structure IterOracle where
  gen : Except String String
  valid : Bool × Option String
  screenshots : Nat
  review : ReviewFeedback

/-- The dict `_process_subprocess` returns. -/
structure SubResult where
  success : Bool
  script : String
  iterations : Nat
  error : Option String
deriving DecidableEq, Repr

/-- The `while iteration < self.max_iterations and not success` loop,
written with the remaining-iteration count as fuel (`i + fuel` is the
iteration bound).  The second component counts GENERATING entries, i.e.
calls to `programmer.process`.  The synthesized FAILED feedbacks of the
invalid-syntax and empty-screenshot branches, and the
`update_library` side channel after a non-passing review, only influence
later prompts or the log, both absorbed into the oracle. -/
def run_iterations (oracle : Nat → IterOracle) :
    Nat → Nat → (Except String SubResult) × Nat
  | i, 0 =>
    (.ok { success := false, script := "", iterations := i,
           error := some "Max iterations reached" }, 0)
  | i, fuel + 1 =>
    let o := oracle i
    match programmer_process o.gen with
    | .error e => (.error e, 1)
    | .ok script_result =>
      if script_result.success = false then
        (.ok { success := false, script := "", iterations := i + 1,
               error := script_result.error }, 1)
      else if o.valid.1 = false then
        let (res, n) := run_iterations oracle (i + 1) fuel
        (res, n + 1)
      else if o.screenshots = 0 then
        let (res, n) := run_iterations oracle (i + 1) fuel
        (res, n + 1)
      else if o.review.passed = true then
        (.ok { success := true, script := script_result.script,
               iterations := i + 1, error := none }, 1)
      else
        let (res, n) := run_iterations oracle (i + 1) fuel
        (res, n + 1)

/-- `KubrickPipeline._process_subprocess` (`pipeline/kubrick.py` 195-297):
result of the iteration loop, or the exception that escaped it. -/
def process_subprocess (max_iterations : Nat) (oracle : Nat → IterOracle) :
    Except String SubResult :=
  (run_iterations oracle 0 max_iterations).1

/-- Number of GENERATING entries (generation attempts) of one
`_process_subprocess` run. -/
def generating_entries (max_iterations : Nat) (oracle : Nat → IterOracle) :
    Nat :=
  (run_iterations oracle 0 max_iterations).2

/-! ### Key-frame sampling (`KubrickPipeline._calculate_key_frames`) -/

/-- `KubrickPipeline._calculate_key_frames` (`pipeline/kubrick.py`
299-311).  Python's float `total_frames / (num_keys - 1)` is modelled as an
exact rational; `int(x)` on a nonnegative value is `⌊x⌋`. -/
def calculate_key_frames (total_frames : Nat) (num_keys : Nat := 5) :
    List ℤ :=
  if total_frames ≤ num_keys then
    (List.range total_frames).map fun i => (i : ℤ) + 1
  else
    let step : ℚ := (total_frames : ℚ) / ((num_keys : ℚ) - 1)
    ((List.range (num_keys - 1)).map fun i => ⌊(i : ℚ) * step⌋ + 1)
      ++ [(total_frames : ℤ)]

/-- `int(fps * duration)` as computed in `generate_video` /
`_process_subprocess` (truncation of a nonnegative product is the floor). -/
def pipeline_total_frames (fps : Nat) (duration : ℚ) : Nat :=
  (⌊(fps : ℚ) * duration⌋).toNat

/-! ### The orchestrator (`KubrickPipeline.generate_video`) -/

/-- One decomposed sub-process together with the collaborator outcomes its
iteration loop will observe. -/
structure SubProcSpec where
  name : String
  oracle : Nat → IterOracle

/-- One entry of `results["errors"]`: either
`{"sub_process": ..., "error": ...}` or `{"phase": ..., "error": ...}`. -/
inductive ErrorEntry
  | subProc (sub_process : String) (error : Option String)
  | phase (phase : String) (error : Option String)
deriving DecidableEq, Repr

/-- State of the phase-2 loop after processing a prefix of the sub-process
list: the accumulated script, the accrued iteration total and error list,
and the exception that ended the loop early, if any. -/
structure Phase2Out where
  accumulated : String
  total_iterations : Nat
  errors : List ErrorEntry
  exc : Option String
deriving Repr

/-- Phase 2 of `generate_video` (`pipeline/kubrick.py` 126-148): process the
sub-processes in order; an accepted script is appended to the accumulated
script and its iteration count accrued; a failed sub-process only appends an
error entry; an escaping exception aborts the loop. -/
def phase2 (max_iterations : Nat) :
    List SubProcSpec → String → Nat → List ErrorEntry → Phase2Out
  | [], acc, iters, errs =>
    { accumulated := acc, total_iterations := iters, errors := errs,
      exc := none }
  | s :: rest, acc, iters, errs =>
    match process_subprocess max_iterations s.oracle with
    | .error e =>
      { accumulated := acc, total_iterations := iters, errors := errs,
        exc := some e }
    | .ok r =>
      if r.success then
        phase2 max_iterations rest (acc ++ "\n\n" ++ r.script)
          (iters + r.iterations) errs
      else
        phase2 max_iterations rest acc iters
          (errs ++ [.subProc s.name r.error])

/-- Outcome of `executor.execute_script` for the final render. -/
structure RenderResult where
  success : Bool
  error : Option String

/-- The collaborator outcomes of one `generate_video` run: the decomposition
(list of sub-processes, or the raised `DecompositionError`), the final
render outcome, and the final review. -/
structure RunOracle where
  decomp : Except String (List SubProcSpec)
  render : RenderResult
  final_review : ReviewFeedback

/-- The `results` dict of `generate_video` (timing omitted). -/
structure RunResults where
  success : Bool
  sub_processes : List String
  total_iterations : Nat
  errors : List ErrorEntry
  final_score : Option ℚ
  final_review : Option (ReviewStatus × ℚ × List String)
deriving DecidableEq, Repr

/-- `generate_video` outcome: the results dict, plus the accumulated script
handed to `_render_final_video` (`none` when an exception aborted the run
before phase 3; `_render_final_video` appends a fixed render-trigger
suffix to it before executing). -/
structure RunOutput where
  results : RunResults
  accumulated_script : Option String

/-- `KubrickPipeline.generate_video` (`pipeline/kubrick.py` 71-193).  The
whole body runs in one `try`; any exception is caught, recorded as a
`{"phase": "pipeline"}` error entry, and ends the run (decomposition
saving, result saving and logging are I/O only).  The base setup script
returned by `_get_base_script` is the parameter `base_script`. -/
def generate_video (max_iterations : Nat) (base_script : String)
    (run : RunOracle) : RunOutput :=
  match run.decomp with
  | .error e =>
    { results := { success := false, sub_processes := [],
                   total_iterations := 0,
                   errors := [.phase "pipeline" (some e)],
                   final_score := none, final_review := none },
      accumulated_script := none }
  | .ok subs =>
    let p2 := phase2 max_iterations subs base_script 0 []
    match p2.exc with
    | some e =>
      { results := { success := false, sub_processes := subs.map (·.name),
                     total_iterations := p2.total_iterations,
                     errors := p2.errors ++ [.phase "pipeline" (some e)],
                     final_score := none, final_review := none },
        accumulated_script := none }
    | none =>
      if run.render.success then
        { results := { success := true, sub_processes := subs.map (·.name),
                       total_iterations := p2.total_iterations,
                       errors := p2.errors,
                       final_score := some run.final_review.score,
                       final_review := some (run.final_review.status,
                         run.final_review.score, run.final_review.issues) },
          accumulated_script := some p2.accumulated }
      else
        { results := { success := false, sub_processes := subs.map (·.name),
                       total_iterations := p2.total_iterations,
                       errors := p2.errors ++ [.phase "rendering" run.render.error],
                       final_score := none, final_review := none },
          accumulated_script := some p2.accumulated }

/-- The scripts of the sub-processes whose loop ended in acceptance, in
processing order. -/
def accepted_scripts (max_iterations : Nat) (subs : List SubProcSpec) :
    List String :=
  subs.filterMap fun s =>
    match process_subprocess max_iterations s.oracle with
    | .ok r => if r.success then some r.script else none
    | .error _ => none

/-- Decidable equality for `Except`, used to evaluate loop results on
concrete inputs. -/
instance {ε α : Type} [DecidableEq ε] [DecidableEq α] :
    DecidableEq (Except ε α) := fun a b =>
  match a, b with
  | .error x, .error y =>
    if h : x = y then isTrue (h ▸ rfl)
    else isFalse (fun hc => h (Except.error.inj hc))
  | .ok x, .ok y =>
    if h : x = y then isTrue (h ▸ rfl)
    else isFalse (fun hc => h (Except.ok.inj hc))
  | .error _, .ok _ => isFalse Except.noConfusion
  | .ok _, .error _ => isFalse Except.noConfusion

/-! ### Statement vocabulary and concrete evaluation inputs -/

/-- Two per-iteration oracles that agree on everything the loop observes
except the review feedback. -/
def same_but_review (o o' : Nat → IterOracle) : Prop :=
  ∀ n, (o n).gen = (o' n).gen ∧ (o n).valid = (o' n).valid
    ∧ (o n).screenshots = (o' n).screenshots

/-- An oracle none of whose reviews has status PASSED. -/
def never_passes (o : Nat → IterOracle) : Prop :=
  ∀ n, (o n).review.status ≠ ReviewStatus.passed

/-- A passing review (score 0.9). -/
def fb_pass : ReviewFeedback :=
  { status := .passed, score := 0.9, issues := [], suggestions := [] }

/-- A FAILED review (score 0.3). -/
def fb_failed : ReviewFeedback :=
  { status := .failed, score := 0.3, issues := [], suggestions := [] }

/-- A NEEDS_REVISION review (score 0.6). -/
def fb_needs : ReviewFeedback :=
  { status := .needsRevision, score := 0.6, issues := [], suggestions := [] }

/-- Every iteration generates `"the_script"`, validates, captures one frame
and passes review. -/
def oracle_pass : Nat → IterOracle := fun _ =>
  { gen := .ok "the_script", valid := (true, none), screenshots := 1,
    review := fb_pass }

/-- Every iteration generates, validates and captures, but review FAILED. -/
def oracle_fail : Nat → IterOracle := fun _ =>
  { gen := .ok "bad_script", valid := (true, none), screenshots := 1,
    review := fb_failed }

/-- Like `oracle_fail` but the review is NEEDS_REVISION. -/
def oracle_needs : Nat → IterOracle := fun _ =>
  { gen := .ok "bad_script", valid := (true, none), screenshots := 1,
    review := fb_needs }

/-- The generation call raises on every iteration. -/
def oracle_genfail : Nat → IterOracle := fun _ =>
  { gen := .error "generation failed", valid := (true, none),
    screenshots := 1, review := fb_pass }

/-- A run whose first sub-process hits a generator failure while a second,
healthy sub-process is still pending. -/
def c1_run : RunOracle :=
  { decomp := .ok [⟨"scene", oracle_genfail⟩, ⟨"lighting", oracle_pass⟩],
    render := { success := true, error := none }, final_review := fb_pass }

/-- A run with one accepted and one exhausted sub-process. -/
def c4_run : RunOracle :=
  { decomp := .ok [⟨"scene", oracle_pass⟩, ⟨"lighting", oracle_fail⟩],
    render := { success := true, error := none }, final_review := fb_pass }

/-- The expected loop result for an exhausted sub-process with bound 2. -/
def exhausted_result : SubResult :=
  { success := false, script := "", iterations := 2,
    error := some "Max iterations reached" }

/-- A review payload with both keys present, passing. -/
def payload_pass : ReviewPayload :=
  { passed := some true, score := some 0.9, issues := none,
    suggestions := none, metrics := none }

/-- A completion output whose first fenced block is js-tagged and whose
python-tagged block comes second. -/
def c6_text : String := "```js\nA\n```\n```python\nB\n```"

/-- A decomposition result containing only the `"scene"` and `"lighting"`
keys. -/
def c7_decomp : String → Option DecompEntry := fun v =>
  if v = "scene" then some { description := some "a red sphere", parameters := none }
  else if v = "lighting" then some { description := none, parameters := none }
  else none

/-- The lighting entry `parse_decomposition c7_decomp` emits. -/
def c7_lighting_sp : SubProcessDescription :=
  { process_type := .lighting, description := "", parameters := [],
    order := 3 }

/-- A library whose only entry is `import_asset` mapped to empty code. -/
def c8_lib : String → Option String := fun name =>
  if name = "import_asset" then some "" else none

/-- Abstract built-in code bodies for concrete library evaluation. -/
def c10_bf : String → String := fun _ => "BUILTIN_CODE"

/-! ## Theorems -/

/-! ### Loop lemmas -/

theorem programmer_process_error (e : String) :
    programmer_process (.error e) = .error e := rfl

theorem programmer_process_ok (raw : String) :
    programmer_process (.ok raw) =
      .ok { success := true, script := String.mk (extract_code raw.data),
            output := "Script generated successfully" } := rfl

theorem passed_eq_true_iff (fb : ReviewFeedback) :
    fb.passed = true ↔ fb.status = ReviewStatus.passed := by
  simp [ReviewFeedback.passed]

theorem passed_eq_false_of_ne {fb : ReviewFeedback}
    (h : fb.status ≠ ReviewStatus.passed) : fb.passed = false := by
  simp [ReviewFeedback.passed]
  exact h

/-- Each entered iteration makes exactly one generation attempt, so the
attempt count is bounded by the fuel. -/
theorem run_iterations_count_le (oracle : Nat → IterOracle) :
    ∀ fuel i, (run_iterations oracle i fuel).2 ≤ fuel := by
  intro fuel
  induction fuel with
  | zero => intro i; simp [run_iterations]
  | succ n ih =>
    intro i
    simp only [run_iterations]
    rcases hg : (oracle i).gen with e | raw
    · simp [hg, programmer_process_error]
    · simp only [hg, programmer_process_ok]
      split
      · simp
      · split
        · simpa using Nat.succ_le_succ (ih (i + 1))
        · split
          · simpa using Nat.succ_le_succ (ih (i + 1))
          · split
            · simp
            · simpa using Nat.succ_le_succ (ih (i + 1))

/-- Shape of a normally returned loop result: the iteration count lies
between the start index and the bound, and a non-accepted run exhausts the
bound with an empty script and the max-iterations error. -/
theorem run_iterations_ok_spec (oracle : Nat → IterOracle) :
    ∀ fuel i r, (run_iterations oracle i fuel).1 = .ok r →
      i ≤ r.iterations ∧ r.iterations ≤ i + fuel ∧
      (r.success = false →
        r.iterations = i + fuel ∧ r.script = "" ∧
        r.error = some "Max iterations reached") := by
  intro fuel
  induction fuel with
  | zero =>
    intro i r h
    simp only [run_iterations] at h
    obtain rfl := Except.ok.inj h
    simp
  | succ n ih =>
    intro i r h
    simp only [run_iterations] at h
    rcases hg : (oracle i).gen with e | raw
    · rw [hg] at h
      simp [programmer_process_error] at h
    · rw [hg] at h
      simp only [programmer_process_ok] at h
      rw [if_neg (by simp)] at h
      split at h
      · have hr := ih (i + 1) r h
        refine ⟨by omega, by omega, fun hs => ?_⟩
        have := hr.2.2 hs
        exact ⟨by omega, this.2.1, this.2.2⟩
      · split at h
        · have hr := ih (i + 1) r h
          refine ⟨by omega, by omega, fun hs => ?_⟩
          have := hr.2.2 hs
          exact ⟨by omega, this.2.1, this.2.2⟩
        · split at h
          · obtain rfl := Except.ok.inj h
            exact ⟨show i ≤ i + 1 by omega,
              show i + 1 ≤ i + (n + 1) by omega,
              fun hs => by simp at hs⟩
          · have hr := ih (i + 1) r h
            refine ⟨by omega, by omega, fun hs => ?_⟩
            have := hr.2.2 hs
            exact ⟨by omega, this.2.1, this.2.2⟩

/-- The loop's control flow depends on the review feedback only through
`passed`; two non-passing reviews steer it identically. -/
theorem run_iterations_congr {o o' : Nat → IterOracle}
    (hsame : same_but_review o o') (h1 : never_passes o)
    (h2 : never_passes o') :
    ∀ fuel i, run_iterations o i fuel = run_iterations o' i fuel := by
  intro fuel
  induction fuel with
  | zero => intro i; rfl
  | succ n ih =>
    intro i
    obtain ⟨hg, hv, hs⟩ := hsame i
    have hp : (o i).review.passed = false := passed_eq_false_of_ne (h1 i)
    have hp' : (o' i).review.passed = false := passed_eq_false_of_ne (h2 i)
    simp only [run_iterations, hg, hv, hs, hp, hp', ih]

/-- When the phase-2 loop runs to completion, its accumulated script is the
start value extended by exactly the accepted scripts, in order. -/
theorem phase2_accumulated (m : Nat) :
    ∀ subs (acc : String) iters errs,
      (phase2 m subs acc iters errs).exc = none →
      (phase2 m subs acc iters errs).accumulated =
        (accepted_scripts m subs).foldl (fun a s => a ++ "\n\n" ++ s) acc := by
  intro subs
  induction subs with
  | nil => intro acc iters errs _; simp [phase2, accepted_scripts]
  | cons s rest ih =>
    intro acc iters errs h
    rcases hp : process_subprocess m s.oracle with e | r
    · simp only [phase2, hp] at h
      simp at h
    · by_cases hs : r.success
      · simp only [phase2, hp, hs, if_true] at h ⊢
        rw [ih _ _ _ h]
        simp [accepted_scripts, List.filterMap_cons, hp, hs]
      · simp only [phase2, hp, hs, Bool.false_eq_true, if_false] at h ⊢
        rw [ih _ _ _ h]
        simp [accepted_scripts, List.filterMap_cons, hp, hs]

/-! ### C1 -/

/-- C1, divergence witness: the claim states a Script Generator failure is
fatal only to that sub-process's iteration loop — the sub-process is
recorded as failed with iteration count i+1 and `generate_video`'s loop
continues with the next sub-process.  In the code, `LLMProgrammer.process`
always returns `success=True` and `generate_script` re-raises on failure, so
the `not script_result.success` handler of `_process_subprocess` is
unreachable; the exception escapes to `generate_video`'s catch-all.  On a
run whose first sub-process's generation raises while a healthy second
sub-process is pending, the recorded error is a `"phase": "pipeline"` entry
(not a per-sub-process one), the second sub-process is never processed, and
phase 3 (render) is never reached. -/
theorem c1_generation_failure_aborts_run :
    (generate_video 15 "BASE" c1_run).results.errors
        = [ErrorEntry.phase "pipeline" (some "generation failed")]
    ∧ (generate_video 15 "BASE" c1_run).results.success = false
    ∧ (generate_video 15 "BASE" c1_run).results.total_iterations = 0
    ∧ (generate_video 15 "BASE" c1_run).accumulated_script = none
    ∧ process_subprocess 15 oracle_pass =
        .ok { success := true, script := "the_script", iterations := 1,
              error := none } := by
  refine ⟨?_, ?_, ?_, ?_, ?_⟩ <;> decide

/-! ### C3 -/

/-- C3: the iteration loop is a total function (so it always terminates),
performs at most `max_iterations` generation attempts, and when it returns
without success it reports exactly `max_iterations` iterations, an empty
script and the max-iterations error (the source spells the reason
`"Max iterations reached"`). -/
theorem c3_iteration_bound (max_iterations : Nat)
    (oracle : Nat → IterOracle) :
    generating_entries max_iterations oracle ≤ max_iterations
    ∧ ∀ r, process_subprocess max_iterations oracle = .ok r →
        r.iterations ≤ max_iterations
        ∧ (r.success = false →
            r.iterations = max_iterations ∧ r.script = ""
            ∧ r.error = some "Max iterations reached") := by
  refine ⟨run_iterations_count_le oracle max_iterations 0, fun r h => ?_⟩
  have hr := run_iterations_ok_spec oracle max_iterations 0 r h
  exact ⟨by omega, fun hs => ⟨by have := (hr.2.2 hs).1; omega,
    (hr.2.2 hs).2.1, (hr.2.2 hs).2.2⟩⟩

/-- C3 witness: a sub-process whose review always fails, bound 2. -/
theorem c3_iteration_bound_witness :
    generating_entries 2 oracle_fail ≤ 2
    ∧ exhausted_result.iterations = 2 ∧ exhausted_result.script = ""
    ∧ exhausted_result.error = some "Max iterations reached" := by
  have h := c3_iteration_bound 2 oracle_fail
  have hr := h.2 exhausted_result (by decide)
  exact ⟨h.1, (hr.2 rfl).1, (hr.2 rfl).2.1, (hr.2 rfl).2.2⟩

/-! ### C4 -/

/-- C4: whenever a run reaches phase 3, the accumulated script handed to the
final render is exactly the base setup script followed by the accepted
sub-process scripts, joined in processing (taxonomy) order; scripts of
rejected or exhausted sub-processes never enter it. -/
theorem c4_accumulated_script (max_iterations : Nat) (base_script : String)
    (run : RunOracle) (subs : List SubProcSpec) (acc : String)
    (hdec : run.decomp = .ok subs)
    (hacc : (generate_video max_iterations base_script run).accumulated_script
      = some acc) :
    acc = (accepted_scripts max_iterations subs).foldl
      (fun a s => a ++ "\n\n" ++ s) base_script := by
  simp only [generate_video, hdec] at hacc
  rcases hexc : (phase2 max_iterations subs base_script 0 []).exc with _ | e
  · simp only [hexc] at hacc
    split at hacc <;>
    · obtain rfl := Option.some.inj hacc
      exact phase2_accumulated max_iterations subs base_script 0 [] hexc
  · simp only [hexc] at hacc
    exact Option.noConfusion hacc

/-- C4 witness: one accepted sub-process (script `"the_script"`) followed by
one exhausted sub-process; the render input is the base plus only the
accepted script. -/
theorem c4_accumulated_script_witness :
    ("BASE\n\nthe_script" : String) =
      (accepted_scripts 2 [⟨"scene", oracle_pass⟩, ⟨"lighting", oracle_fail⟩]).foldl
        (fun a s => a ++ "\n\n" ++ s) "BASE" := by
  have hdec : c4_run.decomp = .ok [⟨"scene", oracle_pass⟩, ⟨"lighting", oracle_fail⟩] := rfl
  exact c4_accumulated_script 2 "BASE" c4_run _ "BASE\n\nthe_script" hdec (by decide)

/-! ### C5 -/

/-- C5: review gating.  (i) With both keys present, the parsed status is
PASSED iff the flag is true and the score is at least 0.8; otherwise it is
NEEDS_REVISION iff the score is at least 0.5 and FAILED iff the score is
below 0.5.  (ii) The loop's acceptance test, `ReviewFeedback.passed`, holds
exactly for status PASSED.  (iii) The two non-PASSED statuses drive the loop
identically: swapping the reviews of a run for any other never-passing
reviews, all else equal, changes neither the loop result nor the number of
generation attempts. -/
theorem c5_review_gating :
    (∀ (d : ReviewPayload) (b : Bool) (q : ℚ),
      d.passed = some b → d.score = some q →
      (((parse_review d).status = ReviewStatus.passed) ↔
          (b = true ∧ (0.8 : ℚ) ≤ q))
      ∧ (((parse_review d).status = ReviewStatus.needsRevision) ↔
          (¬(b = true ∧ (0.8 : ℚ) ≤ q) ∧ (0.5 : ℚ) ≤ q))
      ∧ (((parse_review d).status = ReviewStatus.failed) ↔
          (¬(b = true ∧ (0.8 : ℚ) ≤ q) ∧ q < (0.5 : ℚ))))
    ∧ (∀ fb : ReviewFeedback, fb.passed = true ↔ fb.status = ReviewStatus.passed)
    ∧ (∀ (max_iterations : Nat) (o o' : Nat → IterOracle),
        same_but_review o o' → never_passes o → never_passes o' →
        process_subprocess max_iterations o = process_subprocess max_iterations o'
        ∧ generating_entries max_iterations o = generating_entries max_iterations o') := by
  refine ⟨fun d b q hb hq => ?_, passed_eq_true_iff, fun m o o' hsame h1 h2 => ?_⟩
  · simp only [parse_review, hb, hq, Option.getD_some]
    by_cases h1 : b = true ∧ (0.8 : ℚ) ≤ q
    · simp [h1]
    · by_cases h2 : (0.5 : ℚ) ≤ q
      · simp [h1, h2]
      · simp [h1, h2, lt_of_not_le h2, not_le.mp h2]
  · have h := run_iterations_congr hsame h1 h2 m 0
    exact ⟨congrArg Prod.fst h, congrArg Prod.snd h⟩

/-- C5 witness: a passing payload is parsed as PASSED, and two concrete runs
that differ only in NEEDS_REVISION versus FAILED reviews produce the same
loop result. -/
theorem c5_review_gating_witness :
    (parse_review payload_pass).status = ReviewStatus.passed
    ∧ process_subprocess 2 oracle_needs = process_subprocess 2 oracle_fail := by
  constructor
  · exact ((c5_review_gating.1 payload_pass true 0.9 rfl rfl).1).mpr
      ⟨rfl, by norm_num⟩
  · exact (c5_review_gating.2.2 2 oracle_needs oracle_fail
      (fun n => ⟨rfl, rfl, rfl⟩)
      (fun n => by simp [oracle_needs, fb_needs])
      (fun n => by simp [oracle_fail, fb_failed])).1

/-! ### C9 -/

/-- C9: a payload whose `"passed"` key is absent or false never parses to
status PASSED, whatever its score; a payload missing both keys parses to a
FAILED feedback with score 0.0 (and empty issue/suggestion/metric
defaults). -/
theorem c9_review_defaults :
    (∀ d : ReviewPayload, d.passed = none ∨ d.passed = some false →
      (parse_review d).status ≠ ReviewStatus.passed)
    ∧ parse_review
        { passed := none, score := none, issues := none, suggestions := none,
          metrics := none } =
      { status := ReviewStatus.failed, score := 0, issues := [],
        suggestions := [], metrics := [] } := by
  constructor
  · intro d h
    have hp : d.passed.getD false = false := by rcases h with h | h <;> simp [h]
    simp only [parse_review, hp]
    rw [if_neg (by simp)]
    split <;> simp
  · simp [parse_review]
    norm_num

/-- C9 witness: a payload with `passed=false` and a perfect score is still
not PASSED. -/
theorem c9_review_defaults_witness :
    (parse_review
      { passed := some false, score := some 1, issues := none,
        suggestions := none, metrics := none }).status ≠ ReviewStatus.passed :=
  c9_review_defaults.1 _ (Or.inr rfl)

/-! ### C2 -/

/-- Evaluation of the sampler at 48 frames: the step is `48/4 = 12` and the
samples are `int(i * 12.0) + 1` for `i < 4`, then the last frame. -/
theorem calculate_key_frames_48 :
    calculate_key_frames 48 5 = [1, 13, 25, 37, 48] := by
  simp only [calculate_key_frames]
  rw [if_neg (by norm_num)]
  rw [show List.range 4 = [0, 1, 2, 3] from by decide]
  simp only [List.map]
  norm_num

/-- C2, counterexample: at 48 total frames with target count 5 the code
samples `[int(i * 12.0) + 1 for i in range(4)] + [48] = [1, 13, 25, 37, 48]`,
not the claimed `[1, 12, 24, 36, 48]`. -/
theorem c2_counterexample :
    calculate_key_frames 48 5 ≠ [1, 12, 24, 36, 48] := by
  rw [calculate_key_frames_48]
  decide

/-- C2 as amended: for every fps and duration with 48 total frames,
key-frame sampling with target count 5 returns exactly `[1, 13, 25, 37, 48]`
(the code's `int(i*step)+1` offsets every interior sample by one relative to
the claimed values); and for every total frame count at most the target
count, every frame index from 1 to the total count is returned. -/
theorem c2_key_frame_sampling :
    (∀ (fps : Nat) (duration : ℚ), (fps : ℚ) * duration = 48 →
      calculate_key_frames (pipeline_total_frames fps duration) 5
        = [1, 13, 25, 37, 48])
    ∧ ∀ total_frames : Nat, total_frames ≤ 5 →
        calculate_key_frames total_frames 5
          = (List.range total_frames).map fun i => (i : ℤ) + 1 := by
  constructor
  · intro fps duration h
    have ht : pipeline_total_frames fps duration = 48 := by
      simp [pipeline_total_frames, h]
    rw [ht, calculate_key_frames_48]
  · intro n h
    simp [calculate_key_frames, h]

/-- C2 witness: a 2-second 24-fps video has 48 frames and samples
`[1, 13, 25, 37, 48]`; a 3-frame video samples every frame. -/
theorem c2_key_frame_sampling_witness :
    calculate_key_frames (pipeline_total_frames 24 2) 5 = [1, 13, 25, 37, 48]
    ∧ calculate_key_frames 3 5 = [1, 2, 3] := by
  constructor
  · exact c2_key_frame_sampling.1 24 2 (by norm_num)
  · rw [c2_key_frame_sampling.2 3 (by norm_num)]
    decide

/-! ### C6 -/

/-- C6, counterexample: on an output whose first fenced block is js-tagged
and whose python-tagged block comes second, the code extracts the python
block (`"B"`), not the contents of the first fenced block (`"js\nA"`). -/
theorem c6_counterexample :
    first_fenced_block c6_text.data = some "js\nA".data
    ∧ extract_code c6_text.data = "B".data
    ∧ extract_code c6_text.data ≠ (first_fenced_block c6_text.data).getD [] := by
  refine ⟨?_, ?_, ?_⟩ <;> decide

/-- C6 as amended: the extracted script equals the trimmed contents of the
first `"```python"` block when the output contains one that is closed by a
later fence and nonempty; otherwise, when the output contains `"```python"`
at all (unclosed or empty block), the whole raw output trimmed; otherwise
the trimmed contents of the first closed nonempty fenced block (language
tag included) when one exists; otherwise the whole raw output trimmed. -/
theorem c6_extract_code (text : List Char) :
    extract_code text =
      match first_python_block text with
      | some c => c
      | none =>
        if (str_find py_fence_open text).isSome then py_strip text
        else
          match first_fenced_block text with
          | some c => c
          | none => py_strip text := by
  simp only [extract_code, first_python_block, first_fenced_block]
  rcases h1 : str_find py_fence_open text with _ | idx
  · rcases h2 : str_find fence_marker text with _ | i
    · simp [h1, h2]
    · rcases h3 : str_find fence_marker (text.drop (i + 3)) with _ | j
      · simp [h1, h2, h3]
      · by_cases hj : 0 < j
        · simp only [h1, h2, h3]
          rw [if_pos (show i + 3 < i + 3 + j by omega), if_pos hj,
            show i + 3 + j - (i + 3) = j from by omega]
          simp
        · simp only [h1, h2, h3]
          rw [if_neg (show ¬ i + 3 < i + 3 + j by omega), if_neg hj]
          simp
  · rcases h2 : str_find fence_marker (text.drop (idx + 9)) with _ | j
    · simp [h1, h2]
    · by_cases hj : 0 < j
      · simp only [h1, h2]
        rw [if_pos (show idx + 9 < idx + 9 + j by omega), if_pos hj,
          show idx + 9 + j - (idx + 9) = j from by omega]
      · simp only [h1, h2]
        rw [if_neg (show ¬ idx + 9 < idx + 9 + j by omega), if_neg hj]
        simp

/-! ### C7 -/

/-- The decomposition walk keeps, of each index/category pair, exactly the
categories whose key is present, in order. -/
theorem parse_decomposition_aux_map (decomp : String → Option DecompEntry) :
    ∀ l : List (Nat × SubProcess),
      (parse_decomposition_aux decomp l).map (·.process_type)
        = (l.map Prod.snd).filter (fun pt => (decomp pt.value).isSome) := by
  intro l
  induction l with
  | nil => simp [parse_decomposition_aux]
  | cons p rest ih =>
    obtain ⟨idx, pt⟩ := p
    rcases hd : decomp pt.value with _ | d
    · simp [parse_decomposition_aux, hd, ih]
    · simp [parse_decomposition_aux, hd, ih]

/-- Every emitted sub-process takes its fields from the matching
decomposition entry and its order/category pair from the walked list. -/
theorem parse_decomposition_aux_mem (decomp : String → Option DecompEntry) :
    ∀ (l : List (Nat × SubProcess)) (sp : SubProcessDescription),
      sp ∈ parse_decomposition_aux decomp l →
      (sp.order, sp.process_type) ∈ l
      ∧ ∃ d, decomp sp.process_type.value = some d
          ∧ sp.description = d.description.getD ""
          ∧ sp.parameters = d.parameters.getD [] := by
  intro l
  induction l with
  | nil => intro sp h; simp [parse_decomposition_aux] at h
  | cons p rest ih =>
    obtain ⟨idx, pt⟩ := p
    intro sp h
    rcases hd : decomp pt.value with _ | d
    · rw [parse_decomposition_aux, hd] at h
      have := ih sp h
      exact ⟨List.mem_cons_of_mem _ this.1, this.2⟩
    · rw [parse_decomposition_aux, hd] at h
      rcases List.mem_cons.mp h with h | h
      · subst h
        exact ⟨List.mem_cons_self _ _, d, hd, rfl, rfl⟩
      · have := ih sp h
        exact ⟨List.mem_cons_of_mem _ this.1, this.2⟩

/-- In the enumerated taxonomy, each index is the category's taxonomy
position. -/
theorem sub_process_enum_index :
    ∀ p ∈ sub_process_enum.enum, p.1 = p.2.taxonomy_index := by
  decide

/-- C7: the Decomposer output contains one entry per taxonomy category
whose key is present in the raw result, in the fixed taxonomy order
`scene, character, motion, lighting, cinematography`; absent categories are
omitted, each entry's fields come from its category's value, and each
entry's `order` equals the category's index in the taxonomy enumeration
(absent categories leave ordinal gaps). -/
theorem c7_decomposition_order (decomp : String → Option DecompEntry) :
    ((parse_decomposition decomp).map (·.process_type)
        = sub_process_enum.filter (fun pt => (decomp pt.value).isSome))
    ∧ ∀ sp ∈ parse_decomposition decomp,
        sp.order = sp.process_type.taxonomy_index
        ∧ ∃ d, decomp sp.process_type.value = some d
            ∧ sp.description = d.description.getD ""
            ∧ sp.parameters = d.parameters.getD [] := by
  constructor
  · have h := parse_decomposition_aux_map decomp sub_process_enum.enum
    rwa [List.enum_map_snd] at h
  · intro sp hsp
    have h := parse_decomposition_aux_mem decomp sub_process_enum.enum sp hsp
    exact ⟨sub_process_enum_index _ h.1, h.2⟩

/-- C7 witness: a decomposition result with only `"scene"` and `"lighting"`
keys yields exactly those two categories in taxonomy order, and the
lighting entry keeps ordinal 3 (the gap of the absent categories). -/
theorem c7_decomposition_order_witness :
    (parse_decomposition c7_decomp).map (·.process_type)
      = [SubProcess.scene, SubProcess.lighting]
    ∧ c7_lighting_sp.order = SubProcess.lighting.taxonomy_index := by
  have h := c7_decomposition_order c7_decomp
  constructor
  · rw [h.1]; decide
  · exact (h.2 c7_lighting_sp (by decide)).1

/-! ### C8 -/

/-- The collection loop keeps, in list order, a name comment plus code for
each name whose lookup is truthy (present and nonempty). -/
theorem collect_functions_eq_filterMap (get_function : String → Option String) :
    ∀ names : List String,
      collect_functions get_function names
        = names.filterMap fun name =>
            match get_function name with
            | some code =>
              if code = "" then none
              else some ("# Function: " ++ name ++ "\n" ++ code)
            | none => none := by
  intro names
  induction names with
  | nil => simp [collect_functions]
  | cons name rest ih =>
    rcases hc : get_function name with _ | code
    · simp [collect_functions, hc, ih]
    · by_cases he : code = ""
      · simp [collect_functions, hc, he, ih]
      · simp [collect_functions, hc, he, ih]

/-- C8, counterexample: a library that maps `import_asset` to the empty
string.  The claim's formula includes the entry (every mapped name present
in the library contributes), but Python's `if func_code:` is falsy on the
empty string, so the code skips it and returns `""` for the scene
category. -/
theorem c8_counterexample :
    get_relevant_functions c8_lib SubProcess.scene = ""
    ∧ relevant_for_claim c8_lib SubProcess.scene = "# Function: import_asset\n"
    ∧ get_relevant_functions c8_lib SubProcess.scene
        ≠ relevant_for_claim c8_lib SubProcess.scene := by
  refine ⟨?_, ?_, ?_⟩ <;> decide

/-- C8 as amended: for every library state and sub-process category,
`get_relevant_functions` returns the entries of the category's fixed
function-name list that are present in the library *with nonempty code*, in
that list's order, each prefixed with a name comment and joined by blank
lines; mapped names that are absent, or whose code is the empty string, are
silently skipped.  (All five categories are mapped, so the source's
`.get(process_type, [])` default never applies.) -/
theorem c8_relevant_functions (get_function : String → Option String)
    (process_type : SubProcess) :
    get_relevant_functions get_function process_type
      = String.intercalate "\n\n"
          ((function_mapping process_type).filterMap fun name =>
            match get_function name with
            | some code =>
              if code = "" then none
              else some ("# Function: " ++ name ++ "\n" ++ code)
            | none => none) := by
  unfold get_relevant_functions
  rw [collect_functions_eq_filterMap]

/-! ### C10 -/

theorem lookup_append (k : String) :
    ∀ d e : List (String × String),
      (d ++ e).lookup k
        = match d.lookup k with
          | some v => some v
          | none => e.lookup k := by
  intro d e
  induction d with
  | nil => simp
  | cons p rest ih =>
    obtain ⟨a, b⟩ := p
    by_cases hak : k = a
    · subst hak
      simp [List.lookup_cons]
    · simp [List.lookup_cons, beq_false_of_ne hak, ih]

theorem lookup_map_replace (k v : String) :
    ∀ d : List (String × String), (d.lookup k).isSome →
      (d.map fun p => if p.1 = k then (k, v) else p).lookup k = some v := by
  intro d
  induction d with
  | nil => simp
  | cons p rest ih =>
    obtain ⟨a, b⟩ := p
    intro h
    by_cases hak : a = k
    · subst hak
      simp [List.lookup_cons, if_pos rfl]
    · have hka : (k == a) = false := beq_false_of_ne fun e => hak e.symm
      simp only [List.lookup_cons, hka] at h
      simp only [List.map_cons, if_neg hak, List.lookup_cons, hka]
      exact ih (by simpa using h)

theorem lookup_map_replace_ne {k k' : String} (hk : k ≠ k') (v : String) :
    ∀ d : List (String × String),
      (d.map fun p => if p.1 = k' then (k', v) else p).lookup k
        = d.lookup k := by
  intro d
  induction d with
  | nil => simp
  | cons p rest ih =>
    obtain ⟨a, b⟩ := p
    by_cases hak : a = k'
    · subst hak
      rw [List.map_cons, if_pos rfl]
      simp only [List.lookup_cons, beq_false_of_ne hk]
      exact ih
    · rw [List.map_cons, if_neg (by simpa using hak)]
      simp only [List.lookup_cons]
      cases k == a <;> simp [ih]

/-- Setting a key makes its lookup return the new code. -/
theorem lookup_dict_set_self (d : List (String × String)) (k v : String) :
    (dict_set d k v).lookup k = some v := by
  unfold dict_set
  by_cases h : (d.lookup k).isSome
  · rw [if_pos h]
    exact lookup_map_replace k v d h
  · rw [if_neg h]
    rw [lookup_append]
    rw [Option.not_isSome_iff_eq_none.mp h]
    simp [List.lookup_cons]

/-- Setting one key leaves every other key's lookup unchanged. -/
theorem lookup_dict_set_ne {k k' : String} (hk : k ≠ k')
    (d : List (String × String)) (v : String) :
    (dict_set d k' v).lookup k = d.lookup k := by
  unfold dict_set
  by_cases h : (d.lookup k').isSome
  · rw [if_pos h]
    exact lookup_map_replace_ne hk v d
  · rw [if_neg h]
    rw [lookup_append]
    rcases hd : d.lookup k with _ | w
    · simp [List.lookup_cons, beq_false_of_ne hk]
    · simp

theorem lookup_filter_keys (bs : List String) (k : String) :
    ∀ d : List (String × String),
      (d.filter fun p => ¬ p.1 ∈ bs).lookup k
        = if k ∈ bs then none else d.lookup k := by
  intro d
  induction d with
  | nil => simp
  | cons p rest ih =>
    obtain ⟨a, b⟩ := p
    by_cases hab : a ∈ bs
    · rw [List.filter_cons_of_neg (by simpa using hab), ih]
      by_cases hkb : k ∈ bs
      · simp [hkb]
      · have hka : k ≠ a := fun h => hkb (h ▸ hab)
        simp [hkb, List.lookup_cons, beq_false_of_ne hka]
    · rw [List.filter_cons_of_pos (by simpa using hab)]
      by_cases hka : k = a
      · subst hka
        simp [List.lookup_cons, hab]
      · simp only [List.lookup_cons, beq_false_of_ne hka]
        exact ih

theorem not_key_of_lookup_none (k : String) :
    ∀ d : List (String × String), d.lookup k = none → ∀ p ∈ d, p.1 ≠ k := by
  intro d
  induction d with
  | nil => simp
  | cons q rest ih =>
    obtain ⟨a, b⟩ := q
    intro h p hp
    rw [List.lookup_cons] at h
    rcases List.mem_cons.mp hp with rfl | hp
    · intro hak
      rw [show (k == a) = true from by simp [hak.symm]] at h
      simp at h
    · rcases hka : k == a with _ | _
      · rw [hka] at h
        exact ih h p hp
      · rw [hka] at h
        simp at h

/-- Updating keys not equal to `k` never changes `k`'s lookup. -/
theorem lookup_dict_update_not_key (k : String) :
    ∀ (e d : List (String × String)), (∀ p ∈ e, p.1 ≠ k) →
      (dict_update d e).lookup k = d.lookup k := by
  intro e
  induction e with
  | nil => intro d _; rfl
  | cons p rest ih =>
    intro d h
    unfold dict_update at *
    rw [List.foldl_cons]
    rw [ih _ fun q hq => h q (List.mem_cons_of_mem _ hq)]
    exact lookup_dict_set_ne (fun hk => h p (List.mem_cons_self _ _) hk.symm) d p.2

/-- A name in the built-in key list looks up its built-in code. -/
theorem lookup_load_builtin (bf : String → String) (k : String) :
    ∀ l : List String, k ∈ l →
      ((l.map fun n => (n, bf n)).lookup k) = some (bf k) := by
  intro l
  induction l with
  | nil => simp
  | cons a rest ih =>
    intro h
    rw [List.map_cons, List.lookup_cons]
    by_cases hka : k = a
    · subst hka
      simp
    · rw [beq_false_of_ne hka]
      exact ih (List.mem_of_ne_of_mem hka h)

/-- C10: after `update_function(name, code, save=True)` the in-memory
library maps `name` to `code`; the saved custom-functions document contains
exactly the entries whose names are not in the built-in catalog; hence an
update whose name shadows a built-in function is never written to durable
storage, and a library reconstructed from the built-ins plus the saved
document returns the built-in code for that name — the update is lost. -/
theorem c10_library_persistence (bf : String → String)
    (custom : List (String × String)) (name code : String) :
    get_function (update_function (mk_library bf custom) name code) name
        = some code
    ∧ (∀ n, (save_custom_functions bf
          (update_function (mk_library bf custom) name code)).lookup n
        = if n ∈ builtin_names then none
          else (update_function (mk_library bf custom) name code).functions.lookup n)
    ∧ (name ∈ builtin_names →
        (save_custom_functions bf
            (update_function (mk_library bf custom) name code)).lookup name = none
        ∧ get_function (mk_library bf (save_custom_functions bf
            (update_function (mk_library bf custom) name code))) name
          = some (bf name)) := by
  have hkeys : (load_builtin_functions bf).map Prod.fst = builtin_names := by
    unfold load_builtin_functions
    rw [List.map_map,
      show (Prod.fst ∘ fun n : String => (n, bf n)) = id from rfl, List.map_id]
  have hsave : ∀ n, (save_custom_functions bf
      (update_function (mk_library bf custom) name code)).lookup n
      = if n ∈ builtin_names then none
        else (update_function (mk_library bf custom) name code).functions.lookup n := by
    intro n
    unfold save_custom_functions
    rw [hkeys]
    exact lookup_filter_keys builtin_names n _
  refine ⟨lookup_dict_set_self _ name code, hsave, fun hmem => ?_⟩
  have hnone : (save_custom_functions bf
      (update_function (mk_library bf custom) name code)).lookup name = none := by
    rw [hsave name, if_pos hmem]
  refine ⟨hnone, ?_⟩
  show (dict_update (load_builtin_functions bf)
    (save_custom_functions bf
      (update_function (mk_library bf custom) name code))).lookup name
    = some (bf name)
  rw [lookup_dict_update_not_key name _ _
    (not_key_of_lookup_none name _ hnone)]
  exact lookup_load_builtin bf name builtin_names hmem

/-- C10 witness: updating the built-in name `import_asset` with custom code
is visible in memory but reconstruction restores the built-in body. -/
theorem c10_library_persistence_witness :
    get_function (update_function (mk_library c10_bf []) "import_asset" "CUSTOM")
        "import_asset" = some "CUSTOM"
    ∧ get_function (mk_library c10_bf (save_custom_functions c10_bf
        (update_function (mk_library c10_bf []) "import_asset" "CUSTOM")))
        "import_asset" = some "BUILTIN_CODE" := by
  have h := c10_library_persistence c10_bf [] "import_asset" "CUSTOM"
  exact ⟨h.1, (h.2.2 (by decide)).2⟩

end Kubrick
